import Mathlib

/-!
Shallow embedding of `src/download_drivers.py`: a utility that downloads the
Selenium browser drivers (chromedriver and geckodriver).

The Python module is a thin sequential wrapper over an HTTP GET, archive
extraction (ZIP / gzip-tar) and OS branching.  We embed it as follows:

* `platform.system()` and `platform.uname()[4]` become explicit `os` / `arch`
  string parameters.
* The network becomes a parameter `net : String → Option String` mapping a URL
  to the decoded response body (`none` models a transport failure, which in
  Python propagates as an uncaught exception).
* Functions that can `raise` return `Except DriverError _`.
* The side-effecting download methods are embedded as the list of effects
  (events) they perform, in program order, together with two filesystem
  semantics on an association list from file path to permission mode: the
  fault-sensitive `stepE` / `runE`, where a chmod of a missing file faults
  (Python's `os.stat` raises `FileNotFoundError`) and aborts the remainder of
  the trace, and the total `step` / `run`, which agrees with `stepE` on every
  non-faulting step (`step_eq_of_stepE`) and is used only under hypotheses
  that rule the fault out.
-/

/-- Boolean test that `needle` occurs at the start of `hay` (on char lists). -/
def firstMatches : List Char → List Char → Bool
  | _, [] => true
  | [], _ :: _ => false
  | a :: as, b :: bs => a == b && firstMatches as bs

/-- Boolean test that `needle` occurs somewhere in `hay` (on char lists). -/
def hasSeq : List Char → List Char → Bool
  | [], needle => firstMatches [] needle
  | a :: as, needle => firstMatches (a :: as) needle || hasSeq as needle

/-- Python's `needle in hay` substring test on strings. -/
def strContains (hay needle : String) : Bool :=
  hasSeq hay.data needle.data

/-- Boolean test that `hay` ends with `needle`. -/
def strEndsWith (hay needle : String) : Bool :=
  firstMatches hay.data.reverse needle.data.reverse

/-- `stat.S_IXUSR` — the owner-execute permission bit, `0o100 = 64 = 2^6`. -/
def S_IXUSR : Nat := 64

/-- Module-level constant `cdriver_latest_release_url`. -/
def cdriver_latest_release_url : String :=
  "https://chromedriver.storage.googleapis.com/LATEST_RELEASE"

/-- Module-level template `cdriver_download_url`, already applied to its two
`format` arguments (version, driver type). -/
def cdriver_download_url (version ctype : String) : String :=
  "https://chromedriver.storage.googleapis.com/" ++ version ++ "/chromedriver_"
    ++ ctype ++ ".zip"

/-- Module-level template `gdriver_download_url`, already applied to its three
`format` arguments (version twice, driver type). -/
def gdriver_download_url (v1 v2 gtype : String) : String :=
  "https://github.com/mozilla/geckodriver/releases/download/v" ++ v1
    ++ "/geckodriver-v" ++ v2 ++ "-" ++ gtype

/-- Errors the Python code can raise during construction: a transport failure
from `urllib` (recording the URL being fetched), or the explicit
`NotImplementedError('This OS is not implemented yet.')`. -/
inductive DriverError
  | transport (url : String)
  | unsupportedOS
deriving DecidableEq

/-- One observable effect of the download methods, in program order:
a version-resolution GET, `urllib.request.urlretrieve`, `ZipFile.extractall`,
`tarfile.extractall`, the `os.chmod(path, st_mode | S_IXUSR)` call, and
`os.remove`. -/
inductive Event
  | get (url : String)
  | downloadTo (url : String) (path : String)
  | unzipE (file : String) (path : String)
  | untarE (file : String) (path : String)
  | chmodAddExec (path : String)
  | removeFile (path : String)
deriving DecidableEq

def isGet : Event → Bool
  | .get _ => true
  | _ => false

def isExtract : Event → Bool
  | .unzipE _ _ => true
  | .untarE _ _ => true
  | _ => false

def isChmod : Event → Bool
  | .chmodAddExec _ => true
  | _ => false

/-- A filesystem: an association list from absolute file path to permission
mode bits. -/
abbrev FS := List (String × Nat)

def fsRemove : FS → String → FS
  | [], _ => []
  | (a, b) :: t, name => if a = name then fsRemove t name else (a, b) :: fsRemove t name

def fsSet (fs : FS) (name : String) (mode : Nat) : FS :=
  (name, mode) :: fsRemove fs name

def fsGet : FS → String → Option Nat
  | [], _ => none
  | (a, b) :: t, name => if a = name then some b else fsGet t name

/-- Extract archive entries (relative name, mode) into directory `path`. -/
def extractAll (entries : List (String × Nat)) (path : String) (fs : FS) : FS :=
  entries.foldl (fun acc e => fsSet acc (path ++ "/" ++ e.1) e.2) fs

/-- Fault-sensitive interpretation of one event.  `entries` gives, for each
archive file path, the list of entries the archive at that path contains.
A chmod of a missing file returns `none`: on that path the program's
`os.stat` raises `FileNotFoundError` uncaught. -/
def stepE (entries : String → List (String × Nat)) (fs : FS) : Event → Option FS
  | .get _ => some fs
  | .downloadTo _ path => some (fsSet fs path 420)
  | .unzipE file path => some (extractAll (entries file) path fs)
  | .untarE file path => some (extractAll (entries file) path fs)
  | .chmodAddExec path =>
      match fsGet fs path with
      | some m => some (fsSet fs path (m ||| S_IXUSR))
      | none => none
  | .removeFile path => some (fsRemove fs path)

/-- Fault-sensitive interpretation of a list of events in order: on a faulting
step the remaining events never run (the exception propagates) and the result
is the filesystem at the fault paired with `false`; `true` means the whole
trace completed. -/
def runE (entries : String → List (String × Nat)) (fs : FS) : List Event → FS × Bool
  | [] => (fs, true)
  | e :: l =>
      match stepE entries fs e with
      | some fs2 => runE entries fs2 l
      | none => (fs, false)

/-- Total interpretation of one event, agreeing with the fault-sensitive
`stepE` wherever the latter succeeds (`step_eq_of_stepE`); the faulting chmod
of a missing file is mapped to a no-op here, so this semantics is only used
under hypotheses that rule that fault out. -/
def step (entries : String → List (String × Nat)) (fs : FS) : Event → FS
  | .get _ => fs
  | .downloadTo _ path => fsSet fs path 420
  | .unzipE file path => extractAll (entries file) path fs
  | .untarE file path => extractAll (entries file) path fs
  | .chmodAddExec path =>
      match fsGet fs path with
      | some m => fsSet fs path (m ||| S_IXUSR)
      | none => fs
  | .removeFile path => fsRemove fs path

/-- Interpret a list of events in order with the total semantics. -/
def run (entries : String → List (String × Nat)) (fs : FS) (evs : List Event) : FS :=
  evs.foldl (step entries) fs

/-- `ChromeDriver.get_version`: which URL the version resolver GETs for a given
version token — the bare latest-release endpoint for the exact token
`'LATEST_RELEASE'`, otherwise the endpoint with `'_' + version` appended. -/
def ChromeDriver.get_version_url (version : String) : String :=
  if version = "LATEST_RELEASE" then cdriver_latest_release_url
  else cdriver_latest_release_url ++ "_" ++ version

/-- `ChromeDriver.get_version`: performs one GET (to `get_version_url version`)
and returns the list of URLs requested together with the response body,
decoded, unmodified.  A transport failure propagates. -/
def ChromeDriver.get_version (net : String → Option String) (version : String) :
    Except DriverError (List String × String) :=
  match net (ChromeDriver.get_version_url version) with
  | none => .error (.transport (ChromeDriver.get_version_url version))
  | some body => .ok ([ChromeDriver.get_version_url version], body)

/-- `ChromeDriver.get_cdriver_download_url`: OS branching on
`platform.system()`, raising `NotImplementedError` for unknown OSes. -/
def ChromeDriver.get_cdriver_download_url (os version : String) :
    Except DriverError String :=
  if os = "Darwin" then .ok (cdriver_download_url version "mac64")
  else if os = "Linux" then .ok (cdriver_download_url version "linux64")
  else if os = "Windows" then .ok (cdriver_download_url version "win32")
  else .error .unsupportedOS

/-- The attributes `ChromeDriver.__init__` stores on `self` (`pwd` is the
module-level directory of the file). -/
structure ChromeDriver where
  version : String
  cdriver_url : String
  cdriver_path : String
  cdriver_zip_path : String
deriving DecidableEq

/-- `ChromeDriver.__init__(version)`: eagerly resolves the version (one GET)
and builds the download URL, then computes the two paths.  Any failure
propagates out of construction.  The returned event list is what construction
itself performed on the network. -/
def ChromeDriver.init (net : String → Option String) (os pwd version : String) :
    Except DriverError (ChromeDriver × List Event) :=
  match ChromeDriver.get_version net version with
  | .error e => .error e
  | .ok (reqs, ver) =>
    match ChromeDriver.get_cdriver_download_url os ver with
    | .error e => .error e
    | .ok url =>
        .ok ({ version := ver
               cdriver_url := url
               cdriver_path := pwd ++ "/chromedriver"
               cdriver_zip_path := (pwd ++ "/chromedriver") ++ ".zip" },
             reqs.map Event.get)

/-- The default `version` argument of `ChromeDriver.__init__`. -/
def ChromeDriver.default_version : String := "LATEST_RELEASE"

/-- `ChromeDriver.__init__` called with no argument. -/
def ChromeDriver.initDefault (net : String → Option String) (os pwd : String) :
    Except DriverError (ChromeDriver × List Event) :=
  ChromeDriver.init net os pwd ChromeDriver.default_version

/-- `ChromeDriver.download_chromedriver`: download the zip, unzip it into
`pwd`, chmod the driver (unless on Windows), delete the zip — as an event
trace in program order. -/
def ChromeDriver.download_chromedriver (os pwd : String) (st : ChromeDriver) :
    List Event :=
  [Event.downloadTo st.cdriver_url (pwd ++ "/" ++ "chromedriver.zip"),
   Event.unzipE st.cdriver_zip_path pwd]
  ++ (if os = "Windows" then [] else [Event.chmodAddExec st.cdriver_path])
  ++ [Event.removeFile st.cdriver_zip_path]

/-- `GeckoDriver.get_gdriver_download_url`: OS branching on
`platform.system()`, with the 64-bitness decided by the substring test
`'64' in platform.uname()[4]`. -/
def GeckoDriver.get_gdriver_download_url (os arch version : String) :
    Except DriverError String :=
  if os = "Darwin" then .ok (gdriver_download_url version version "macos.tar.gz")
  else if os = "Linux" then
    if strContains arch "64" then
      .ok (gdriver_download_url version version "linux64.tar.gz")
    else
      .ok (gdriver_download_url version version "linux32.tar.gz")
  else if os = "Windows" then
    if strContains arch "64" then
      .ok (gdriver_download_url version version "win64.zip")
    else
      .ok (gdriver_download_url version version "win32.zip")
  else .error .unsupportedOS

/-- The attributes `GeckoDriver.__init__` stores on `self`. -/
structure GeckoDriver where
  version : String
  gdriver_url : String
  gdriver_path : String
  gdriver_tar_gz_path : String
  gdriver_zip_path : String
deriving DecidableEq

/-- `GeckoDriver.__init__(version)`: stores the caller-supplied version
verbatim, builds the URL (which may raise), computes the paths.  No network
access: the construction event trace is empty. -/
def GeckoDriver.init (os arch pwd version : String) :
    Except DriverError (GeckoDriver × List Event) :=
  match GeckoDriver.get_gdriver_download_url os arch version with
  | .error e => .error e
  | .ok url =>
      .ok ({ version := version
             gdriver_url := url
             gdriver_path := pwd ++ "/geckodriver"
             gdriver_tar_gz_path := (pwd ++ "/geckodriver") ++ ".tar.gz"
             gdriver_zip_path := (pwd ++ "/geckodriver") ++ ".zip" },
           [])

/-- `GeckoDriver.download_geckodriver`: on Windows download a `.zip` and
unzip it; otherwise download a `.tar.gz` and untar it; in both cases delete
the archive afterwards — as an event trace in program order. -/
def GeckoDriver.download_geckodriver (os pwd : String) (st : GeckoDriver) :
    List Event :=
  if os = "Windows" then
    [Event.downloadTo st.gdriver_url (pwd ++ "/" ++ "geckodriver.zip"),
     Event.unzipE st.gdriver_zip_path pwd,
     Event.removeFile st.gdriver_zip_path]
  else
    [Event.downloadTo st.gdriver_url (pwd ++ "/" ++ "geckodriver.tar.gz"),
     Event.untarE st.gdriver_tar_gz_path pwd,
     Event.removeFile st.gdriver_tar_gz_path]

/-- The archive file path the Firefox-like download step writes and later
deletes, for a given host OS. -/
def GeckoDriver.archive_path (os : String) (st : GeckoDriver) : String :=
  if os = "Windows" then st.gdriver_zip_path else st.gdriver_tar_gz_path

/-! ### String helper lemmas -/

theorem str_append_cancel_left {p a b : String} (h : p ++ a = p ++ b) : a = b := by
  apply String.ext
  have hd := congrArg String.data h
  simp only [String.data_append] at hd
  exact List.append_cancel_left hd

theorem str_append_ne (p : String) {a b : String} (h : a ≠ b) : p ++ a ≠ p ++ b :=
  fun he => h (str_append_cancel_left he)

theorem str_assoc_app (p : String) {a b c : String} (h : a ++ b = c) :
    (p ++ a) ++ b = p ++ c := by
  rw [String.append_assoc, h]

theorem str_ne_self_append {a b : String} (h : b.length ≠ 0) : a ≠ a ++ b := by
  intro he
  have hl := congrArg String.length he
  rw [String.length_append] at hl
  omega

theorem firstMatches_append {n : List Char} (m : List Char) :
    ∀ l, firstMatches l n = true → firstMatches (l ++ m) n = true := by
  induction n with
  | nil => intro l _; cases l <;> simp [firstMatches]
  | cons b bs ih =>
    intro l h
    cases l with
    | nil => simp [firstMatches] at h
    | cons a as =>
      simp only [firstMatches, Bool.and_eq_true] at h
      simp only [List.cons_append, firstMatches, Bool.and_eq_true]
      exact ⟨h.1, ih as h.2⟩

theorem hasSeq_append (xs : List Char) {ys n : List Char} (h : hasSeq ys n = true) :
    hasSeq (xs ++ ys) n = true := by
  induction xs with
  | nil => simpa using h
  | cons a as ih =>
    simp only [List.cons_append, hasSeq, Bool.or_eq_true]
    exact Or.inr ih

theorem strEndsWith_append (a : String) {b t : String} (h : strEndsWith b t = true) :
    strEndsWith (a ++ b) t = true := by
  unfold strEndsWith at h ⊢
  rw [String.data_append, List.reverse_append]
  exact firstMatches_append _ _ h

/-! ### Filesystem lemmas -/

theorem fsGet_fsRemove_same (fs : FS) (n : String) : fsGet (fsRemove fs n) n = none := by
  induction fs with
  | nil => rfl
  | cons p t ih =>
    obtain ⟨a, b⟩ := p
    by_cases ha : a = n
    · simpa [fsRemove, ha] using ih
    · simpa [fsRemove, fsGet, ha] using ih

theorem fsGet_fsRemove_ne (fs : FS) {n n' : String} (h : n' ≠ n) :
    fsGet (fsRemove fs n) n' = fsGet fs n' := by
  induction fs with
  | nil => rfl
  | cons p t ih =>
    obtain ⟨a, b⟩ := p
    by_cases ha : a = n
    · have hne : ¬ a = n' := by rw [ha]; exact fun he => h he.symm
      simp only [fsRemove, fsGet, if_pos ha, if_neg hne]
      exact ih
    · by_cases ha' : a = n'
      · simp only [fsRemove, fsGet, if_neg ha, if_pos ha']
      · simp only [fsRemove, fsGet, if_neg ha, if_neg ha']
        exact ih

theorem fsGet_fsSet_same (fs : FS) (n : String) (m : Nat) :
    fsGet (fsSet fs n m) n = some m := by
  simp [fsSet, fsGet]

theorem fsGet_fsSet_ne (fs : FS) {n n' : String} (m : Nat) (h : n' ≠ n) :
    fsGet (fsSet fs n m) n' = fsGet fs n' := by
  have hne : ¬ n = n' := fun he => h he.symm
  simp only [fsSet, fsGet, if_neg hne]
  exact fsGet_fsRemove_ne fs h

theorem isSome_fsSet (fs : FS) {n' : String} (n : String) (m : Nat)
    (h : (fsGet fs n').isSome = true) : (fsGet (fsSet fs n m) n').isSome = true := by
  by_cases he : n' = n
  · subst he; simp [fsGet_fsSet_same]
  · rwa [fsGet_fsSet_ne fs m he]

theorem isSome_extractAll (entries : List (String × Nat)) (path : String) :
    ∀ (fs : FS) (n' : String), (fsGet fs n').isSome = true →
      (fsGet (extractAll entries path fs) n').isSome = true := by
  induction entries with
  | nil => intro fs n' h; simpa [extractAll] using h
  | cons e t ih =>
    intro fs n' h
    have he : extractAll (e :: t) path fs
        = extractAll t path (fsSet fs (path ++ "/" ++ e.1) e.2) := rfl
    rw [he]
    exact ih _ _ (isSome_fsSet fs _ _ h)

theorem extractAll_mem_isSome {name : String} {m : Nat} (path : String) :
    ∀ (entries : List (String × Nat)) (fs : FS), (name, m) ∈ entries →
      (fsGet (extractAll entries path fs) (path ++ "/" ++ name)).isSome = true := by
  intro entries
  induction entries with
  | nil => intro fs h; cases h
  | cons e t ih =>
    intro fs h
    rcases List.mem_cons.mp h with he | ht
    · have hr : extractAll (e :: t) path fs
          = extractAll t path (fsSet fs (path ++ "/" ++ e.1) e.2) := rfl
      rw [hr]
      apply isSome_extractAll
      rw [← he]
      simp [fsGet_fsSet_same]
    · exact ih _ ht

theorem run_append (entries : String → List (String × Nat)) (fs : FS)
    (a b : List Event) : run entries fs (a ++ b) = run entries (run entries fs a) b := by
  simp [run, List.foldl_append]

theorem isSome_step_chmod (entries : String → List (String × Nat)) (fs : FS)
    {n' : String} (p : String) (h : (fsGet fs n').isSome = true) :
    (fsGet (step entries fs (Event.chmodAddExec p)) n').isSome = true := by
  simp only [step]
  cases hm : fsGet fs p with
  | none => simpa using h
  | some m => exact isSome_fsSet fs _ _ h

theorem step_eq_of_stepE (entries : String → List (String × Nat)) {fs fs2 : FS}
    {e : Event} (h : stepE entries fs e = some fs2) : step entries fs e = fs2 := by
  cases e with
  | get u => exact Option.some.inj h
  | downloadTo u p => exact Option.some.inj h
  | unzipE f p => exact Option.some.inj h
  | untarE f p => exact Option.some.inj h
  | chmodAddExec p =>
    simp only [stepE] at h
    simp only [step]
    cases hm : fsGet fs p with
    | some m =>
      rw [hm] at h
      exact Option.some.inj h
    | none =>
      rw [hm] at h
      exact absurd h (by simp)
  | removeFile p => exact Option.some.inj h

theorem runE_cons_some (entries : String → List (String × Nat)) {fs fs2 : FS}
    {e : Event} (l : List Event) (h : stepE entries fs e = some fs2) :
    runE entries fs (e :: l) = runE entries fs2 l := by
  simp only [runE, h]

/-! ### Permission-bit helpers -/

theorem testBit_S_IXUSR (i : Nat) : Nat.testBit S_IXUSR i = decide (i = 6) := by
  match i with
  | 0 => decide
  | 1 => decide
  | 2 => decide
  | 3 => decide
  | 4 => decide
  | 5 => decide
  | 6 => decide
  | n + 7 =>
    have h64 : S_IXUSR < 2 ^ (n + 7) := by
      have h1 : S_IXUSR < 2 ^ 7 := by decide
      have h2 : (2 : Nat) ^ 7 ≤ 2 ^ (n + 7) :=
        Nat.pow_le_pow_right (by omega) (by omega)
      omega
    rw [Nat.testBit_lt_two_pow h64]
    have : ¬ (n + 7 = 6) := by omega
    simp [this]

theorem mode_or_exec (m : Nat) :
    Nat.testBit (m ||| S_IXUSR) 6 = true ∧
    ∀ i, i ≠ 6 → Nat.testBit (m ||| S_IXUSR) i = Nat.testBit m i := by
  constructor
  · rw [Nat.testBit_lor, testBit_S_IXUSR]
    simp
  · intro i hi
    rw [Nat.testBit_lor, testBit_S_IXUSR]
    simp [hi]

/-! ### Path-equality helpers -/

theorem chrome_driver_path_eq (pwd : String) :
    pwd ++ "/" ++ "chromedriver" = pwd ++ "/chromedriver" := by
  rw [String.append_assoc]
  exact congrArg (fun s => pwd ++ s)
    (by decide : ("/" ++ "chromedriver" : String) = "/chromedriver")

theorem chrome_zip_path_eq (pwd : String) :
    pwd ++ "/" ++ "chromedriver.zip" = (pwd ++ "/chromedriver") ++ ".zip" := by
  rw [String.append_assoc, String.append_assoc]
  exact congrArg (fun s => pwd ++ s)
    (by decide : ("/" ++ "chromedriver.zip" : String) = "/chromedriver" ++ ".zip")

theorem gecko_driver_path_eq (pwd : String) :
    pwd ++ "/" ++ "geckodriver" = pwd ++ "/geckodriver" := by
  rw [String.append_assoc]
  exact congrArg (fun s => pwd ++ s)
    (by decide : ("/" ++ "geckodriver" : String) = "/geckodriver")

theorem gecko_zip_path_eq (pwd : String) :
    pwd ++ "/" ++ "geckodriver.zip" = (pwd ++ "/geckodriver") ++ ".zip" := by
  rw [String.append_assoc, String.append_assoc]
  exact congrArg (fun s => pwd ++ s)
    (by decide : ("/" ++ "geckodriver.zip" : String) = "/geckodriver" ++ ".zip")

theorem gecko_targz_path_eq (pwd : String) :
    pwd ++ "/" ++ "geckodriver.tar.gz" = (pwd ++ "/geckodriver") ++ ".tar.gz" := by
  rw [String.append_assoc, String.append_assoc]
  exact congrArg (fun s => pwd ++ s)
    (by decide : ("/" ++ "geckodriver.tar.gz" : String) = "/geckodriver" ++ ".tar.gz")

/-! ### Constructor inversion lemmas -/

theorem chrome_init_ok {net : String → Option String} {os pwd v : String}
    {st : ChromeDriver} {evs : List Event}
    (h : ChromeDriver.init net os pwd v = .ok (st, evs)) :
    st.cdriver_path = pwd ++ "/chromedriver" ∧
    st.cdriver_zip_path = (pwd ++ "/chromedriver") ++ ".zip" ∧
    ChromeDriver.get_cdriver_download_url os st.version = .ok st.cdriver_url ∧
    evs = [Event.get (ChromeDriver.get_version_url v)] ∧
    net (ChromeDriver.get_version_url v) = some st.version := by
  unfold ChromeDriver.init ChromeDriver.get_version at h
  rcases hn : net (ChromeDriver.get_version_url v) with _ | body
  · rw [hn] at h
    exact absurd h (by simp)
  · rw [hn] at h
    dsimp only at h
    rcases hu : ChromeDriver.get_cdriver_download_url os body with e | url
    · rw [hu] at h
      exact absurd h (by simp)
    · rw [hu] at h
      simp only [Except.ok.injEq, Prod.mk.injEq] at h
      obtain ⟨hst, hevs⟩ := h
      subst hst
      subst hevs
      exact ⟨rfl, rfl, hu, rfl, rfl⟩

theorem gecko_init_ok {os arch pwd v : String} {st : GeckoDriver}
    {evs : List Event}
    (h : GeckoDriver.init os arch pwd v = .ok (st, evs)) :
    st.version = v ∧
    GeckoDriver.get_gdriver_download_url os arch v = .ok st.gdriver_url ∧
    st.gdriver_path = pwd ++ "/geckodriver" ∧
    st.gdriver_tar_gz_path = (pwd ++ "/geckodriver") ++ ".tar.gz" ∧
    st.gdriver_zip_path = (pwd ++ "/geckodriver") ++ ".zip" ∧
    evs = [] := by
  unfold GeckoDriver.init at h
  rcases hu : GeckoDriver.get_gdriver_download_url os arch v with e | url
  · rw [hu] at h
    exact absurd h (by simp)
  · rw [hu] at h
    simp only [Except.ok.injEq, Prod.mk.injEq] at h
    obtain ⟨hst, hevs⟩ := h
    subst hst
    subst hevs
    exact ⟨rfl, rfl, rfl, rfl, rfl, rfl⟩

theorem GeckoDriver.url_ok_os {os arch v u : String}
    (h : GeckoDriver.get_gdriver_download_url os arch v = .ok u) :
    os = "Darwin" ∨ os = "Linux" ∨ os = "Windows" := by
  by_contra hc
  push_neg at hc
  obtain ⟨h1, h2, h3⟩ := hc
  simp [GeckoDriver.get_gdriver_download_url, h1, h2, h3] at h

/-! ### URL-template helpers -/

theorem cdriver_url_contains (w t n : String)
    (h : hasSeq (t.data ++ (".zip" : String).data) n.data = true) :
    strContains (cdriver_download_url w t) n = true := by
  unfold strContains cdriver_download_url
  simp only [String.data_append, List.append_assoc]
  exact hasSeq_append _ (hasSeq_append _ (hasSeq_append _ h))

theorem cdriver_url_ne (w t1 t2 : String)
    (h : t1 ++ ".zip" ≠ t2 ++ ".zip") :
    cdriver_download_url w t1 ≠ cdriver_download_url w t2 := by
  intro he
  apply h
  have hd := congrArg String.data he
  simp only [cdriver_download_url, String.data_append, List.append_assoc] at hd
  have h1 := List.append_cancel_left hd
  have h2 := List.append_cancel_left h1
  have h3 := List.append_cancel_left h2
  apply String.ext
  simpa [String.data_append] using h3

/-- C1: for every resolved version string, the Chrome-like URL builder maps
Darwin to a URL containing `mac64`, Linux to one containing `linux64` and
Windows to one containing `win32`, returning `.ok` (never raising) for these
three; the three URLs are pairwise distinct; and the Chrome-like download
step's only extraction event is a ZIP extraction. -/
theorem C1_chrome_url_builder (v os pwd : String) (st : ChromeDriver) :
    (∃ u, ChromeDriver.get_cdriver_download_url "Darwin" v = .ok u ∧
      strContains u "mac64" = true) ∧
    (∃ u, ChromeDriver.get_cdriver_download_url "Linux" v = .ok u ∧
      strContains u "linux64" = true) ∧
    (∃ u, ChromeDriver.get_cdriver_download_url "Windows" v = .ok u ∧
      strContains u "win32" = true) ∧
    ChromeDriver.get_cdriver_download_url "Darwin" v
      ≠ ChromeDriver.get_cdriver_download_url "Linux" v ∧
    ChromeDriver.get_cdriver_download_url "Darwin" v
      ≠ ChromeDriver.get_cdriver_download_url "Windows" v ∧
    ChromeDriver.get_cdriver_download_url "Linux" v
      ≠ ChromeDriver.get_cdriver_download_url "Windows" v ∧
    (ChromeDriver.download_chromedriver os pwd st).filter isExtract
      = [Event.unzipE st.cdriver_zip_path pwd] := by
  refine ⟨⟨cdriver_download_url v "mac64", ?_, ?_⟩,
    ⟨cdriver_download_url v "linux64", ?_, ?_⟩,
    ⟨cdriver_download_url v "win32", ?_, ?_⟩, ?_, ?_, ?_, ?_⟩
  · simp [ChromeDriver.get_cdriver_download_url]
  · exact cdriver_url_contains v "mac64" "mac64" (by decide)
  · simp [ChromeDriver.get_cdriver_download_url]
  · exact cdriver_url_contains v "linux64" "linux64" (by decide)
  · simp [ChromeDriver.get_cdriver_download_url]
  · exact cdriver_url_contains v "win32" "win32" (by decide)
  · simp only [ChromeDriver.get_cdriver_download_url, ne_eq]
    simp only [Except.ok.injEq, reduceIte, reduceCtorEq, String.reduceEq,
      if_false, if_true]
    exact cdriver_url_ne v "mac64" "linux64" (by decide)
  · simp only [ChromeDriver.get_cdriver_download_url, ne_eq]
    simp only [Except.ok.injEq, reduceIte, reduceCtorEq, String.reduceEq,
      if_false, if_true]
    exact cdriver_url_ne v "mac64" "win32" (by decide)
  · simp only [ChromeDriver.get_cdriver_download_url, ne_eq]
    simp only [Except.ok.injEq, reduceIte, reduceCtorEq, String.reduceEq,
      if_false, if_true]
    exact cdriver_url_ne v "linux64" "win32" (by decide)
  · unfold ChromeDriver.download_chromedriver
    by_cases hw : os = "Windows" <;> simp [hw, isExtract]

/-- C2 counterexample: the Chrome-like version resolver, given the literal
token `"latest"`, does not GET the bare latest-release endpoint; it appends
`"_latest"` after an underscore and requests that URL instead. -/
theorem C2_counterexample :
    ChromeDriver.get_version (fun _ => some "80.0.3987.106") "latest"
      = .ok ([cdriver_latest_release_url ++ "_" ++ "latest"], "80.0.3987.106") ∧
    cdriver_latest_release_url ++ "_" ++ "latest" ≠ cdriver_latest_release_url := by
  constructor
  · rfl
  · decide

/-- C2 (amended): if the Chrome-like version token is the sentinel
`"LATEST_RELEASE"` (not `"latest"`), the resolver issues exactly one GET to
the fixed latest-release endpoint with nothing appended and returns the
response body, decoded, unmodified. -/
theorem C2_latest_release_resolution (net : String → Option String) (body : String)
    (h : net cdriver_latest_release_url = some body) :
    ChromeDriver.get_version net "LATEST_RELEASE"
      = .ok ([cdriver_latest_release_url], body) := by
  have hu : ChromeDriver.get_version_url "LATEST_RELEASE" = cdriver_latest_release_url := by
    decide
  unfold ChromeDriver.get_version
  rw [hu, h]

/-- C2 witness: the amended theorem applied to a network returning a concrete
body on the latest-release endpoint. -/
theorem C2_latest_release_resolution_witness :
    ChromeDriver.get_version (fun _ => some "80.0.3987.106") "LATEST_RELEASE"
      = .ok ([cdriver_latest_release_url], "80.0.3987.106") :=
  C2_latest_release_resolution (fun _ => some "80.0.3987.106") "80.0.3987.106" rfl

/-- C3: for every version token other than the sentinel `"LATEST_RELEASE"`,
the resolver issues one GET to the latest-release endpoint with an underscore
and the token appended, and returns the response body as the resolved
version. -/
theorem C3_partial_version_resolution (net : String → Option String) (v body : String)
    (hv : v ≠ "LATEST_RELEASE")
    (h : net (cdriver_latest_release_url ++ "_" ++ v) = some body) :
    ChromeDriver.get_version net v
      = .ok ([cdriver_latest_release_url ++ "_" ++ v], body) := by
  unfold ChromeDriver.get_version ChromeDriver.get_version_url
  rw [if_neg hv, h]

/-- C3 witness: resolving the partial version `"78"` GETs the endpoint with
`"_78"` appended and returns the body. -/
theorem C3_partial_version_resolution_witness :
    ChromeDriver.get_version (fun _ => some "78.0.3904.105") "78"
      = .ok ([cdriver_latest_release_url ++ "_" ++ "78"], "78.0.3904.105") :=
  C3_partial_version_resolution (fun _ => some "78.0.3904.105") "78" "78.0.3904.105"
    (by decide) rfl

/-- C4: the Firefox-like URL builder uses the caller-supplied version verbatim
(no remote resolution — construction performs no network events), embeds it
through the template applied twice, and selects the suffix per OS and
64-bitness of the architecture string; `"x86_64"` contains `"64"` and
`"i686"` does not. -/
theorem C4_gecko_url_builder (v arch pwd : String) :
    GeckoDriver.get_gdriver_download_url "Darwin" arch v
      = .ok (gdriver_download_url v v "macos.tar.gz") ∧
    GeckoDriver.get_gdriver_download_url "Linux" arch v
      = .ok (gdriver_download_url v v
          (if strContains arch "64" then "linux64.tar.gz" else "linux32.tar.gz")) ∧
    GeckoDriver.get_gdriver_download_url "Windows" arch v
      = .ok (gdriver_download_url v v
          (if strContains arch "64" then "win64.zip" else "win32.zip")) ∧
    strContains "x86_64" "64" = true ∧
    strContains "i686" "64" = false ∧
    (∀ os st evs, GeckoDriver.init os arch pwd v = .ok (st, evs) →
      st.version = v ∧ evs = []) := by
  refine ⟨?_, ?_, ?_, by decide, by decide, ?_⟩
  · simp [GeckoDriver.get_gdriver_download_url]
  · cases hc : strContains arch "64" <;>
      simp [GeckoDriver.get_gdriver_download_url, hc]
  · cases hc : strContains arch "64" <;>
      simp [GeckoDriver.get_gdriver_download_url, hc]
  · intro os st evs h
    have hi := gecko_init_ok h
    exact ⟨hi.1, hi.2.2.2.2.2⟩

/-- C4 witness: constructing the Firefox-like flow on Linux/x86_64 with
version 0.26.0 succeeds, stores the version verbatim and performs no
network events. -/
theorem C4_gecko_url_builder_witness :
    (GeckoDriver.mk "0.26.0" (gdriver_download_url "0.26.0" "0.26.0" "linux64.tar.gz")
        ("/w" ++ "/geckodriver") (("/w" ++ "/geckodriver") ++ ".tar.gz")
        (("/w" ++ "/geckodriver") ++ ".zip")).version = "0.26.0" ∧
    ([] : List Event) = [] :=
  (C4_gecko_url_builder "0.26.0" "x86_64" "/w").2.2.2.2.2 "Linux"
    (GeckoDriver.mk "0.26.0" (gdriver_download_url "0.26.0" "0.26.0" "linux64.tar.gz")
      ("/w" ++ "/geckodriver") (("/w" ++ "/geckodriver") ++ ".tar.gz")
      (("/w" ++ "/geckodriver") ++ ".zip")) [] (by rfl)

/-- C5: for every OS string other than Darwin, Linux and Windows, both the
Chrome-like and the Firefox-like URL builders raise the unsupported-OS error
instead of returning a URL. -/
theorem C5_unsupported_os (os arch v : String)
    (h1 : os ≠ "Darwin") (h2 : os ≠ "Linux") (h3 : os ≠ "Windows") :
    ChromeDriver.get_cdriver_download_url os v = .error .unsupportedOS ∧
    GeckoDriver.get_gdriver_download_url os arch v = .error .unsupportedOS := by
  constructor
  · unfold ChromeDriver.get_cdriver_download_url
    rw [if_neg h1, if_neg h2, if_neg h3]
  · unfold GeckoDriver.get_gdriver_download_url
    rw [if_neg h1, if_neg h2, if_neg h3]

/-- C5 witness: both URL builders raise unsupported-OS on "FreeBSD". -/
theorem C5_unsupported_os_witness :
    ChromeDriver.get_cdriver_download_url "FreeBSD" "78.0.3904.70"
      = .error .unsupportedOS ∧
    GeckoDriver.get_gdriver_download_url "FreeBSD" "x86_64" "0.26.0"
      = .error .unsupportedOS :=
  ⟨(C5_unsupported_os "FreeBSD" "x86_64" "78.0.3904.70"
      (by decide) (by decide) (by decide)).1,
   (C5_unsupported_os "FreeBSD" "x86_64" "0.26.0"
      (by decide) (by decide) (by decide)).2⟩

/-- C9: the Chrome-like resolver requests the bare latest-release endpoint
if and only if the token is exactly the string `"LATEST_RELEASE"`, which is
also the constructor's default argument; every other token — including the
literal `"latest"` and the empty string — is appended after an underscore
with no validation. -/
theorem C9_sentinel_iff (v : String) :
    (ChromeDriver.get_version_url v = cdriver_latest_release_url
      ↔ v = "LATEST_RELEASE") ∧
    (v ≠ "LATEST_RELEASE" →
      ChromeDriver.get_version_url v = cdriver_latest_release_url ++ "_" ++ v) ∧
    ChromeDriver.default_version = "LATEST_RELEASE" ∧
    ChromeDriver.get_version_url ChromeDriver.default_version
      = cdriver_latest_release_url := by
  refine ⟨⟨?_, ?_⟩, ?_, rfl, by decide⟩
  · intro h
    by_contra hv
    rw [ChromeDriver.get_version_url, if_neg hv] at h
    have hl := congrArg String.length h
    rw [String.length_append, String.length_append] at hl
    have h1 : ("_" : String).length = 1 := rfl
    omega
  · intro hv
    subst hv
    decide
  · intro hv
    unfold ChromeDriver.get_version_url
    rw [if_neg hv]

/-- C9 witness: the literal `"latest"` and the empty string are both sent
underscore-appended, not to the bare endpoint. -/
theorem C9_sentinel_iff_witness :
    ChromeDriver.get_version_url "latest"
      = cdriver_latest_release_url ++ "_" ++ "latest" ∧
    ChromeDriver.get_version_url "" = cdriver_latest_release_url ++ "_" ++ "" :=
  ⟨(C9_sentinel_iff "latest").2.1 (by decide),
   (C9_sentinel_iff "").2.1 (by decide)⟩

theorem run_nil (entries : String → List (String × Nat)) (fs : FS) :
    run entries fs [] = fs := rfl

theorem run_single (entries : String → List (String × Nat)) (fs : FS) (e : Event) :
    run entries fs [e] = step entries fs e := rfl

/-- C6: constructing the Chrome-like flow resolves the version (performing the
GET) and builds the download URL eagerly: a transport failure or an
unsupported OS surfaces as an error of `init` itself; on success the
construction trace contains the resolution GET and the state's URL is the one
the URL builder produces; and the download step's trace contains no GET
(no version resolution). -/
theorem C6_eager_resolution (net : String → Option String) (os pwd v : String) :
    (net (ChromeDriver.get_version_url v) = none →
      ChromeDriver.init net os pwd v
        = .error (.transport (ChromeDriver.get_version_url v))) ∧
    (∀ body, net (ChromeDriver.get_version_url v) = some body →
      os ≠ "Darwin" → os ≠ "Linux" → os ≠ "Windows" →
      ChromeDriver.init net os pwd v = .error .unsupportedOS) ∧
    (∀ st evs, ChromeDriver.init net os pwd v = .ok (st, evs) →
      Event.get (ChromeDriver.get_version_url v) ∈ evs ∧
      ChromeDriver.get_cdriver_download_url os st.version = .ok st.cdriver_url) ∧
    (∀ st : ChromeDriver, ∀ e ∈ ChromeDriver.download_chromedriver os pwd st,
      isGet e = false) := by
  refine ⟨?_, ?_, ?_, ?_⟩
  · intro hn
    unfold ChromeDriver.init ChromeDriver.get_version
    rw [hn]
  · intro body hb h1 h2 h3
    unfold ChromeDriver.init ChromeDriver.get_version
    rw [hb]
    dsimp only
    have hc : ChromeDriver.get_cdriver_download_url os body = .error .unsupportedOS := by
      unfold ChromeDriver.get_cdriver_download_url
      rw [if_neg h1, if_neg h2, if_neg h3]
    rw [hc]
  · intro st evs h
    have hi := chrome_init_ok h
    refine ⟨?_, hi.2.2.1⟩
    rw [hi.2.2.2.1]
    exact List.mem_singleton.mpr rfl
  · intro st e he
    unfold ChromeDriver.download_chromedriver at he
    by_cases hw : os = "Windows"
    · rw [if_pos hw] at he
      simp only [List.append_nil, List.cons_append, List.nil_append,
        List.mem_cons, List.not_mem_nil, or_false] at he
      rcases he with rfl | rfl | rfl <;> rfl
    · rw [if_neg hw] at he
      simp only [List.cons_append, List.nil_append, List.mem_cons,
        List.not_mem_nil, or_false] at he
      rcases he with rfl | rfl | rfl | rfl <;> rfl

/-- C6 witness: with a failing network, construction itself returns the
transport error; with a working network but an unknown OS, construction
itself returns the unsupported-OS error. -/
theorem C6_eager_resolution_witness :
    ChromeDriver.init (fun _ => none) "Linux" "/w" "LATEST_RELEASE"
      = .error (.transport (ChromeDriver.get_version_url "LATEST_RELEASE")) ∧
    ChromeDriver.init (fun _ => some "83.0.4103.39") "Haiku" "/w" "83"
      = .error .unsupportedOS :=
  ⟨(C6_eager_resolution (fun _ => none) "Linux" "/w" "LATEST_RELEASE").1 rfl,
   (C6_eager_resolution (fun _ => some "83.0.4103.39") "Haiku" "/w" "83").2.1
     "83.0.4103.39" rfl (by decide) (by decide) (by decide)⟩

/-- C7: in the Chrome-like flow, when the host OS is not Windows, after
extraction the driver file's permission mode becomes its previous mode with
owner-execute (`S_IXUSR`) OR-ed in — bit 6 is set and every other bit is
exactly as before; when the host OS is Windows the trace contains no chmod
event and the mode is unchanged; and the Firefox-like download trace never
contains a chmod event. -/
theorem C7_chmod_owner_exec (net : String → Option String) (os pwd v : String)
    (st : ChromeDriver) (evs : List Event)
    (entries : String → List (String × Nat)) (fs0 : FS) (m : Nat)
    (hinit : ChromeDriver.init net os pwd v = .ok (st, evs)) :
    (os ≠ "Windows" →
      fsGet (run entries fs0
          [Event.downloadTo st.cdriver_url (pwd ++ "/" ++ "chromedriver.zip"),
           Event.unzipE st.cdriver_zip_path pwd]) st.cdriver_path = some m →
      fsGet (run entries fs0 (ChromeDriver.download_chromedriver os pwd st))
          st.cdriver_path = some (m ||| S_IXUSR) ∧
      Nat.testBit (m ||| S_IXUSR) 6 = true ∧
      (∀ i, i ≠ 6 → Nat.testBit (m ||| S_IXUSR) i = Nat.testBit m i)) ∧
    (os = "Windows" →
      (∀ e ∈ ChromeDriver.download_chromedriver os pwd st, isChmod e = false) ∧
      (fsGet (run entries fs0
          [Event.downloadTo st.cdriver_url (pwd ++ "/" ++ "chromedriver.zip"),
           Event.unzipE st.cdriver_zip_path pwd]) st.cdriver_path = some m →
       fsGet (run entries fs0 (ChromeDriver.download_chromedriver os pwd st))
          st.cdriver_path = some m)) ∧
    (∀ gos gpwd (gst : GeckoDriver),
      ∀ e ∈ GeckoDriver.download_geckodriver gos gpwd gst, isChmod e = false) := by
  have hi := chrome_init_ok hinit
  have hdz : st.cdriver_path ≠ st.cdriver_zip_path := by
    rw [hi.1, hi.2.1]
    exact str_ne_self_append (by decide)
  refine ⟨?_, ?_, ?_⟩
  · intro hw h2
    refine ⟨?_, (mode_or_exec m).1, (mode_or_exec m).2⟩
    unfold ChromeDriver.download_chromedriver
    rw [if_neg hw, run_append, run_append, run_single, run_single]
    have hchmod : step entries
        (run entries fs0
          [Event.downloadTo st.cdriver_url (pwd ++ "/" ++ "chromedriver.zip"),
           Event.unzipE st.cdriver_zip_path pwd])
        (Event.chmodAddExec st.cdriver_path)
        = fsSet (run entries fs0
            [Event.downloadTo st.cdriver_url (pwd ++ "/" ++ "chromedriver.zip"),
             Event.unzipE st.cdriver_zip_path pwd]) st.cdriver_path (m ||| S_IXUSR) := by
      simp only [step]
      rw [h2]
    rw [hchmod]
    simp only [step]
    rw [fsGet_fsRemove_ne _ hdz, fsGet_fsSet_same]
  · intro hw
    constructor
    · intro e he
      unfold ChromeDriver.download_chromedriver at he
      rw [if_pos hw] at he
      simp only [List.append_nil, List.cons_append, List.nil_append,
        List.mem_cons, List.not_mem_nil, or_false] at he
      rcases he with rfl | rfl | rfl <;> rfl
    · intro h2
      unfold ChromeDriver.download_chromedriver
      rw [if_pos hw, run_append, run_append, run_nil, run_single]
      simp only [step]
      rw [fsGet_fsRemove_ne _ hdz]
      exact h2
  · intro gos gpwd gst e he
    unfold GeckoDriver.download_geckodriver at he
    by_cases hw : gos = "Windows"
    · rw [if_pos hw] at he
      simp only [List.mem_cons, List.not_mem_nil, or_false] at he
      rcases he with rfl | rfl | rfl <;> rfl
    · rw [if_neg hw] at he
      simp only [List.mem_cons, List.not_mem_nil, or_false] at he
      rcases he with rfl | rfl | rfl <;> rfl

/-- C7 witness: on Linux, with an archive containing a `chromedriver` entry
of mode 0, the final mode is `0 ||| S_IXUSR` and bit 6 is set. -/
theorem C7_chmod_owner_exec_witness :
    fsGet (run (fun _ => [("chromedriver", 0)]) []
        (ChromeDriver.download_chromedriver "Linux" "/w"
          (ChromeDriver.mk "83.0.4103.39"
            (cdriver_download_url "83.0.4103.39" "linux64")
            ("/w" ++ "/chromedriver") (("/w" ++ "/chromedriver") ++ ".zip"))))
      ("/w" ++ "/chromedriver") = some (0 ||| S_IXUSR) ∧
    Nat.testBit (0 ||| S_IXUSR) 6 = true := by
  have h := (C7_chmod_owner_exec (fun _ => some "83.0.4103.39") "Linux" "/w" "83"
    (ChromeDriver.mk "83.0.4103.39" (cdriver_download_url "83.0.4103.39" "linux64")
      ("/w" ++ "/chromedriver") (("/w" ++ "/chromedriver") ++ ".zip"))
    [Event.get (ChromeDriver.get_version_url "83")]
    (fun _ => [("chromedriver", 0)]) [] 0 rfl).1 (by decide) (by decide)
  exact ⟨h.1, h.2.1⟩

theorem run_cons (entries : String → List (String × Nat)) (fs : FS) (e : Event)
    (l : List Event) : run entries fs (e :: l) = run entries (step entries fs e) l := rfl

/-- C8 counterexample: on Linux, when the downloaded archive contains no
`chromedriver` entry, the chmod step between extraction and cleanup faults
(`os.stat` raises `FileNotFoundError`), the flow aborts before the cleanup
event — which is in the trace but never executes — and the downloaded
`chromedriver.zip` is still on disk: the archive is not deleted
unconditionally with respect to the archive's contents. -/
theorem C8_counterexample :
    ChromeDriver.init (fun _ => some "83.0.4103.39") "Linux" "/w" "83"
      = .ok (ChromeDriver.mk "83.0.4103.39"
          (cdriver_download_url "83.0.4103.39" "linux64")
          ("/w" ++ "/chromedriver") (("/w" ++ "/chromedriver") ++ ".zip"),
        [Event.get (ChromeDriver.get_version_url "83")]) ∧
    (runE (fun _ => []) []
        (ChromeDriver.download_chromedriver "Linux" "/w"
          (ChromeDriver.mk "83.0.4103.39"
            (cdriver_download_url "83.0.4103.39" "linux64")
            ("/w" ++ "/chromedriver") (("/w" ++ "/chromedriver") ++ ".zip")))).2
      = false ∧
    fsGet (runE (fun _ => []) []
        (ChromeDriver.download_chromedriver "Linux" "/w"
          (ChromeDriver.mk "83.0.4103.39"
            (cdriver_download_url "83.0.4103.39" "linux64")
            ("/w" ++ "/chromedriver") (("/w" ++ "/chromedriver") ++ ".zip")))).1
      (("/w" ++ "/chromedriver") ++ ".zip") = some 420 ∧
    Event.removeFile (("/w" ++ "/chromedriver") ++ ".zip")
      ∈ ChromeDriver.download_chromedriver "Linux" "/w"
          (ChromeDriver.mk "83.0.4103.39"
            (cdriver_download_url "83.0.4103.39" "linux64")
            ("/w" ++ "/chromedriver") (("/w" ++ "/chromedriver") ++ ".zip")) :=
  ⟨rfl, by decide, by decide, by decide⟩

/-- C8 (amended): in both flows the archive-deleting event is distinct from
and strictly after the extraction event (and last in the trace).  Under the
fault-sensitive semantics: the Firefox-like flow (on every platform its
construction accepts) and the Windows Chrome-like flow complete and delete
the archive regardless of the archive's contents; the non-Windows Chrome-like
flow reaches the deletion only past the chmod step, which faults when no
driver file exists after extraction — when the archive contains a
`chromedriver` entry the flow completes, the archive file no longer exists
and the extracted driver file does. -/
theorem C8_cleanup_after_extraction
    (net : String → Option String) (os arch pwd v gv : String)
    (st : ChromeDriver) (evs : List Event) (gst : GeckoDriver) (gevs : List Event)
    (entries : String → List (String × Nat)) (fs0 : FS) (m gm : Nat)
    (hc : ChromeDriver.init net os pwd v = .ok (st, evs))
    (hg : GeckoDriver.init os arch pwd gv = .ok (gst, gevs)) :
    (∃ (i j : Nat), i < j ∧
      (ChromeDriver.download_chromedriver os pwd st)[i]?
        = some (Event.unzipE st.cdriver_zip_path pwd) ∧
      (ChromeDriver.download_chromedriver os pwd st)[j]?
        = some (Event.removeFile st.cdriver_zip_path) ∧
      (ChromeDriver.download_chromedriver os pwd st).getLast?
        = some (Event.removeFile st.cdriver_zip_path)) ∧
    (os = "Windows" →
      (runE entries fs0 (ChromeDriver.download_chromedriver os pwd st)).2 = true ∧
      fsGet (runE entries fs0 (ChromeDriver.download_chromedriver os pwd st)).1
        st.cdriver_zip_path = none ∧
      (("chromedriver", m) ∈ entries st.cdriver_zip_path →
        (fsGet (runE entries fs0 (ChromeDriver.download_chromedriver os pwd st)).1
          st.cdriver_path).isSome = true)) ∧
    (os ≠ "Windows" → ("chromedriver", m) ∈ entries st.cdriver_zip_path →
      (runE entries fs0 (ChromeDriver.download_chromedriver os pwd st)).2 = true ∧
      fsGet (runE entries fs0 (ChromeDriver.download_chromedriver os pwd st)).1
        st.cdriver_zip_path = none ∧
      (fsGet (runE entries fs0 (ChromeDriver.download_chromedriver os pwd st)).1
        st.cdriver_path).isSome = true) ∧
    (∃ (i j : Nat) (e : Event), i < j ∧ isExtract e = true ∧
      (GeckoDriver.download_geckodriver os pwd gst)[i]? = some e ∧
      (GeckoDriver.download_geckodriver os pwd gst)[j]?
        = some (Event.removeFile (GeckoDriver.archive_path os gst)) ∧
      (GeckoDriver.download_geckodriver os pwd gst).getLast?
        = some (Event.removeFile (GeckoDriver.archive_path os gst))) ∧
    (runE entries fs0 (GeckoDriver.download_geckodriver os pwd gst)).2 = true ∧
    fsGet (runE entries fs0 (GeckoDriver.download_geckodriver os pwd gst)).1
      (GeckoDriver.archive_path os gst) = none ∧
    (("geckodriver", gm) ∈ entries (GeckoDriver.archive_path os gst) →
      (fsGet (runE entries fs0 (GeckoDriver.download_geckodriver os pwd gst)).1
        gst.gdriver_path).isSome = true) := by
  have hi := chrome_init_ok hc
  have hgi := gecko_init_ok hg
  have hdz : st.cdriver_path ≠ st.cdriver_zip_path := by
    rw [hi.1, hi.2.1]
    exact str_ne_self_append (by decide)
  have hgz : gst.gdriver_path ≠ gst.gdriver_zip_path := by
    rw [hgi.2.2.1, hgi.2.2.2.2.1]
    exact str_ne_self_append (by decide)
  have hgt : gst.gdriver_path ≠ gst.gdriver_tar_gz_path := by
    rw [hgi.2.2.1, hgi.2.2.2.1]
    exact str_ne_self_append (by decide)
  refine ⟨?_, ?_, ?_, ?_⟩
  · unfold ChromeDriver.download_chromedriver
    by_cases hw : os = "Windows"
    · rw [if_pos hw]
      exact ⟨1, 2, by omega, rfl, rfl, rfl⟩
    · rw [if_neg hw]
      exact ⟨1, 3, by omega, rfl, rfl, rfl⟩
  · intro hw
    have htc : ChromeDriver.download_chromedriver os pwd st
        = [Event.downloadTo st.cdriver_url (pwd ++ "/" ++ "chromedriver.zip"),
           Event.unzipE st.cdriver_zip_path pwd,
           Event.removeFile st.cdriver_zip_path] := by
      unfold ChromeDriver.download_chromedriver
      rw [if_pos hw]
      rfl
    have hrun : runE entries fs0
        [Event.downloadTo st.cdriver_url (pwd ++ "/" ++ "chromedriver.zip"),
         Event.unzipE st.cdriver_zip_path pwd,
         Event.removeFile st.cdriver_zip_path]
        = (fsRemove (extractAll (entries st.cdriver_zip_path) pwd
            (fsSet fs0 (pwd ++ "/" ++ "chromedriver.zip") 420))
            st.cdriver_zip_path, true) := rfl
    rw [htc, hrun]
    refine ⟨rfl, fsGet_fsRemove_same _ _, ?_⟩
    intro hm
    have hx := extractAll_mem_isSome pwd (entries st.cdriver_zip_path)
      (fsSet fs0 (pwd ++ "/" ++ "chromedriver.zip") 420) hm
    rw [chrome_driver_path_eq] at hx
    rw [fsGet_fsRemove_ne _ hdz, hi.1]
    exact hx
  · intro hw hm
    have htc : ChromeDriver.download_chromedriver os pwd st
        = [Event.downloadTo st.cdriver_url (pwd ++ "/" ++ "chromedriver.zip"),
           Event.unzipE st.cdriver_zip_path pwd,
           Event.chmodAddExec st.cdriver_path,
           Event.removeFile st.cdriver_zip_path] := by
      unfold ChromeDriver.download_chromedriver
      rw [if_neg hw]
      rfl
    have hx := extractAll_mem_isSome pwd (entries st.cdriver_zip_path)
      (fsSet fs0 (pwd ++ "/" ++ "chromedriver.zip") 420) hm
    rw [chrome_driver_path_eq, ← hi.1] at hx
    obtain ⟨m2, hm2⟩ := Option.isSome_iff_exists.mp hx
    have hstep : stepE entries
        (extractAll (entries st.cdriver_zip_path) pwd
          (fsSet fs0 (pwd ++ "/" ++ "chromedriver.zip") 420))
        (Event.chmodAddExec st.cdriver_path)
        = some (fsSet (extractAll (entries st.cdriver_zip_path) pwd
            (fsSet fs0 (pwd ++ "/" ++ "chromedriver.zip") 420))
            st.cdriver_path (m2 ||| S_IXUSR)) := by
      simp only [stepE]
      rw [hm2]
    have hrun : runE entries fs0
        [Event.downloadTo st.cdriver_url (pwd ++ "/" ++ "chromedriver.zip"),
         Event.unzipE st.cdriver_zip_path pwd,
         Event.chmodAddExec st.cdriver_path,
         Event.removeFile st.cdriver_zip_path]
        = (fsRemove (fsSet (extractAll (entries st.cdriver_zip_path) pwd
            (fsSet fs0 (pwd ++ "/" ++ "chromedriver.zip") 420))
            st.cdriver_path (m2 ||| S_IXUSR)) st.cdriver_zip_path, true) := by
      have h1 : runE entries fs0
          [Event.downloadTo st.cdriver_url (pwd ++ "/" ++ "chromedriver.zip"),
           Event.unzipE st.cdriver_zip_path pwd,
           Event.chmodAddExec st.cdriver_path,
           Event.removeFile st.cdriver_zip_path]
          = runE entries
              (extractAll (entries st.cdriver_zip_path) pwd
                (fsSet fs0 (pwd ++ "/" ++ "chromedriver.zip") 420))
              [Event.chmodAddExec st.cdriver_path,
               Event.removeFile st.cdriver_zip_path] := rfl
      rw [h1, runE_cons_some entries [Event.removeFile st.cdriver_zip_path] hstep]
      rfl
    rw [htc, hrun]
    refine ⟨rfl, fsGet_fsRemove_same _ _, ?_⟩
    rw [fsGet_fsRemove_ne _ hdz, fsGet_fsSet_same]
    rfl
  · by_cases hw : os = "Windows"
    · have htr : GeckoDriver.download_geckodriver os pwd gst
          = [Event.downloadTo gst.gdriver_url (pwd ++ "/" ++ "geckodriver.zip"),
             Event.unzipE gst.gdriver_zip_path pwd,
             Event.removeFile gst.gdriver_zip_path] := by
        unfold GeckoDriver.download_geckodriver
        rw [if_pos hw]
      have hap : GeckoDriver.archive_path os gst = gst.gdriver_zip_path := by
        unfold GeckoDriver.archive_path
        rw [if_pos hw]
      have hrun : runE entries fs0
          [Event.downloadTo gst.gdriver_url (pwd ++ "/" ++ "geckodriver.zip"),
           Event.unzipE gst.gdriver_zip_path pwd,
           Event.removeFile gst.gdriver_zip_path]
          = (fsRemove (extractAll (entries gst.gdriver_zip_path) pwd
              (fsSet fs0 (pwd ++ "/" ++ "geckodriver.zip") 420))
              gst.gdriver_zip_path, true) := rfl
      rw [htr, hap, hrun]
      refine ⟨⟨1, 2, Event.unzipE gst.gdriver_zip_path pwd,
        by omega, rfl, rfl, rfl, rfl⟩, rfl, fsGet_fsRemove_same _ _, ?_⟩
      intro hm
      have hx := extractAll_mem_isSome pwd (entries gst.gdriver_zip_path)
        (fsSet fs0 (pwd ++ "/" ++ "geckodriver.zip") 420) hm
      rw [gecko_driver_path_eq] at hx
      rw [fsGet_fsRemove_ne _ hgz, hgi.2.2.1]
      exact hx
    · have htr : GeckoDriver.download_geckodriver os pwd gst
          = [Event.downloadTo gst.gdriver_url (pwd ++ "/" ++ "geckodriver.tar.gz"),
             Event.untarE gst.gdriver_tar_gz_path pwd,
             Event.removeFile gst.gdriver_tar_gz_path] := by
        unfold GeckoDriver.download_geckodriver
        rw [if_neg hw]
      have hap : GeckoDriver.archive_path os gst = gst.gdriver_tar_gz_path := by
        unfold GeckoDriver.archive_path
        rw [if_neg hw]
      have hrun : runE entries fs0
          [Event.downloadTo gst.gdriver_url (pwd ++ "/" ++ "geckodriver.tar.gz"),
           Event.untarE gst.gdriver_tar_gz_path pwd,
           Event.removeFile gst.gdriver_tar_gz_path]
          = (fsRemove (extractAll (entries gst.gdriver_tar_gz_path) pwd
              (fsSet fs0 (pwd ++ "/" ++ "geckodriver.tar.gz") 420))
              gst.gdriver_tar_gz_path, true) := rfl
      rw [htr, hap, hrun]
      refine ⟨⟨1, 2, Event.untarE gst.gdriver_tar_gz_path pwd,
        by omega, rfl, rfl, rfl, rfl⟩, rfl, fsGet_fsRemove_same _ _, ?_⟩
      intro hm
      have hx := extractAll_mem_isSome pwd (entries gst.gdriver_tar_gz_path)
        (fsSet fs0 (pwd ++ "/" ++ "geckodriver.tar.gz") 420) hm
      rw [gecko_driver_path_eq] at hx
      rw [fsGet_fsRemove_ne _ hgt, hgi.2.2.1]
      exact hx

/-- C8 witness: on Linux, with archives containing the driver-named entries,
both download traces complete, the archive files are gone afterwards and the
driver files exist. -/
theorem C8_cleanup_after_extraction_witness :
    (runE (fun _ => [("chromedriver", 0), ("geckodriver", 0)]) []
        (ChromeDriver.download_chromedriver "Linux" "/w"
          (ChromeDriver.mk "83.0.4103.39"
            (cdriver_download_url "83.0.4103.39" "linux64")
            ("/w" ++ "/chromedriver") (("/w" ++ "/chromedriver") ++ ".zip")))).2
      = true ∧
    fsGet (runE (fun _ => [("chromedriver", 0), ("geckodriver", 0)]) []
        (ChromeDriver.download_chromedriver "Linux" "/w"
          (ChromeDriver.mk "83.0.4103.39"
            (cdriver_download_url "83.0.4103.39" "linux64")
            ("/w" ++ "/chromedriver") (("/w" ++ "/chromedriver") ++ ".zip")))).1
      (("/w" ++ "/chromedriver") ++ ".zip") = none ∧
    (fsGet (runE (fun _ => [("chromedriver", 0), ("geckodriver", 0)]) []
        (ChromeDriver.download_chromedriver "Linux" "/w"
          (ChromeDriver.mk "83.0.4103.39"
            (cdriver_download_url "83.0.4103.39" "linux64")
            ("/w" ++ "/chromedriver") (("/w" ++ "/chromedriver") ++ ".zip")))).1
      ("/w" ++ "/chromedriver")).isSome = true ∧
    (runE (fun _ => [("chromedriver", 0), ("geckodriver", 0)]) []
        (GeckoDriver.download_geckodriver "Linux" "/w"
          (GeckoDriver.mk "0.26.0"
            (gdriver_download_url "0.26.0" "0.26.0" "linux64.tar.gz")
            ("/w" ++ "/geckodriver") (("/w" ++ "/geckodriver") ++ ".tar.gz")
            (("/w" ++ "/geckodriver") ++ ".zip")))).2 = true ∧
    fsGet (runE (fun _ => [("chromedriver", 0), ("geckodriver", 0)]) []
        (GeckoDriver.download_geckodriver "Linux" "/w"
          (GeckoDriver.mk "0.26.0"
            (gdriver_download_url "0.26.0" "0.26.0" "linux64.tar.gz")
            ("/w" ++ "/geckodriver") (("/w" ++ "/geckodriver") ++ ".tar.gz")
            (("/w" ++ "/geckodriver") ++ ".zip")))).1
      (GeckoDriver.archive_path "Linux"
        (GeckoDriver.mk "0.26.0"
          (gdriver_download_url "0.26.0" "0.26.0" "linux64.tar.gz")
          ("/w" ++ "/geckodriver") (("/w" ++ "/geckodriver") ++ ".tar.gz")
          (("/w" ++ "/geckodriver") ++ ".zip"))) = none ∧
    (fsGet (runE (fun _ => [("chromedriver", 0), ("geckodriver", 0)]) []
        (GeckoDriver.download_geckodriver "Linux" "/w"
          (GeckoDriver.mk "0.26.0"
            (gdriver_download_url "0.26.0" "0.26.0" "linux64.tar.gz")
            ("/w" ++ "/geckodriver") (("/w" ++ "/geckodriver") ++ ".tar.gz")
            (("/w" ++ "/geckodriver") ++ ".zip")))).1
      ("/w" ++ "/geckodriver")).isSome = true := by
  have h := C8_cleanup_after_extraction (fun _ => some "83.0.4103.39") "Linux"
    "x86_64" "/w" "83" "0.26.0"
    (ChromeDriver.mk "83.0.4103.39" (cdriver_download_url "83.0.4103.39" "linux64")
      ("/w" ++ "/chromedriver") (("/w" ++ "/chromedriver") ++ ".zip"))
    [Event.get (ChromeDriver.get_version_url "83")]
    (GeckoDriver.mk "0.26.0" (gdriver_download_url "0.26.0" "0.26.0" "linux64.tar.gz")
      ("/w" ++ "/geckodriver") (("/w" ++ "/geckodriver") ++ ".tar.gz")
      (("/w" ++ "/geckodriver") ++ ".zip")) []
    (fun _ => [("chromedriver", 0), ("geckodriver", 0)]) [] 0 0 rfl rfl
  have h3 := h.2.2.1 (by decide) (by decide)
  exact ⟨h3.1, h3.2.1, h3.2.2, h.2.2.2.2.1, h.2.2.2.2.2.1, h.2.2.2.2.2.2 (by decide)⟩

theorem gdriver_url_endsWith (v1 v2 t z : String) (h : strEndsWith t z = true) :
    strEndsWith (gdriver_download_url v1 v2 t) z = true := by
  unfold gdriver_download_url
  exact strEndsWith_append _ h

/-- C10: for every platform on which Firefox-like construction succeeds, the
archive filename and extraction routine chosen by the download step (zip +
unzip on Windows, tar.gz + untar otherwise) agree with the archive kind
encoded in the URL suffix chosen by the URL builder, and the file the
download step writes is exactly the file the cleanup step deletes. -/
theorem C10_gecko_archive_kind_agreement (os arch pwd v : String)
    (st : GeckoDriver) (evs : List Event)
    (h : GeckoDriver.init os arch pwd v = .ok (st, evs)) :
    (os = "Windows" →
      strEndsWith st.gdriver_url ".zip" = true ∧
      GeckoDriver.download_geckodriver os pwd st
        = [Event.downloadTo st.gdriver_url (pwd ++ "/" ++ "geckodriver.zip"),
           Event.unzipE st.gdriver_zip_path pwd,
           Event.removeFile st.gdriver_zip_path] ∧
      pwd ++ "/" ++ "geckodriver.zip" = st.gdriver_zip_path) ∧
    (os ≠ "Windows" →
      strEndsWith st.gdriver_url ".tar.gz" = true ∧
      GeckoDriver.download_geckodriver os pwd st
        = [Event.downloadTo st.gdriver_url (pwd ++ "/" ++ "geckodriver.tar.gz"),
           Event.untarE st.gdriver_tar_gz_path pwd,
           Event.removeFile st.gdriver_tar_gz_path] ∧
      pwd ++ "/" ++ "geckodriver.tar.gz" = st.gdriver_tar_gz_path) := by
  have hgi := gecko_init_ok h
  constructor
  · intro hw
    refine ⟨?_, ?_, ?_⟩
    · have h1 := hgi.2.1
      rw [hw] at h1
      cases hc : strContains arch "64" <;>
        simp only [GeckoDriver.get_gdriver_download_url, hc, String.reduceEq,
          if_false, if_true, Bool.false_eq_true, Except.ok.injEq] at h1 <;>
        rw [← h1] <;>
        exact gdriver_url_endsWith v v _ ".zip" (by decide)
    · unfold GeckoDriver.download_geckodriver
      rw [if_pos hw]
    · rw [hgi.2.2.2.2.1]
      exact gecko_zip_path_eq pwd
  · intro hw
    refine ⟨?_, ?_, ?_⟩
    · have h1 := hgi.2.1
      rcases GeckoDriver.url_ok_os hgi.2.1 with hd | hl | hwin
      · rw [hd] at h1
        simp only [GeckoDriver.get_gdriver_download_url, String.reduceEq,
          if_true, Except.ok.injEq] at h1
        rw [← h1]
        exact gdriver_url_endsWith v v "macos.tar.gz" ".tar.gz" (by decide)
      · rw [hl] at h1
        cases hc : strContains arch "64" <;>
          simp only [GeckoDriver.get_gdriver_download_url, hc, String.reduceEq,
            if_false, if_true, Bool.false_eq_true, Except.ok.injEq] at h1 <;>
          rw [← h1] <;>
          exact gdriver_url_endsWith v v _ ".tar.gz" (by decide)
      · exact absurd hwin hw
    · unfold GeckoDriver.download_geckodriver
      rw [if_neg hw]
    · rw [hgi.2.2.2.1]
      exact gecko_targz_path_eq pwd

/-- C10 witness: on Darwin the URL suffix is a gzip-tar, the download step
downloads to the `.tar.gz` archive and untars it, and the downloaded file is
the one the cleanup deletes. -/
theorem C10_gecko_archive_kind_agreement_witness :
    strEndsWith (gdriver_download_url "0.26.0" "0.26.0" "macos.tar.gz")
      ".tar.gz" = true ∧
    GeckoDriver.download_geckodriver "Darwin" "/w"
        (GeckoDriver.mk "0.26.0"
          (gdriver_download_url "0.26.0" "0.26.0" "macos.tar.gz")
          ("/w" ++ "/geckodriver") (("/w" ++ "/geckodriver") ++ ".tar.gz")
          (("/w" ++ "/geckodriver") ++ ".zip"))
      = [Event.downloadTo (gdriver_download_url "0.26.0" "0.26.0" "macos.tar.gz")
           ("/w" ++ "/" ++ "geckodriver.tar.gz"),
         Event.untarE (("/w" ++ "/geckodriver") ++ ".tar.gz") "/w",
         Event.removeFile (("/w" ++ "/geckodriver") ++ ".tar.gz")] ∧
    "/w" ++ "/" ++ "geckodriver.tar.gz" = ("/w" ++ "/geckodriver") ++ ".tar.gz" :=
  (C10_gecko_archive_kind_agreement "Darwin" "x86_64" "/w" "0.26.0"
    (GeckoDriver.mk "0.26.0" (gdriver_download_url "0.26.0" "0.26.0" "macos.tar.gz")
      ("/w" ++ "/geckodriver") (("/w" ++ "/geckodriver") ++ ".tar.gz")
      (("/w" ++ "/geckodriver") ++ ".zip")) [] rfl).2 (by decide)
